import Mathlib

/-!
Verification development for the EmojiKitchen downloader.

Shallow embedding of the repository's core: the path resolver and storage
manager (`src/emoji_kitchen/storage/manager.py`), the JSON result logger
(`src/emoji_kitchen/utils/json_logger.py`), the per-pair download logic of
the orchestrator (`src/emoji_kitchen/orchestrator.py`) and the bulk
downloader's per-pair processing (`Scripts/bulk_download.py`).

Emoji are represented by their list of Unicode scalar values (`List Nat`),
byte strings by `List Nat`, file paths by their component lists
(`List String`, mirroring `pathlib.Path` component-wise equality), and the
filesystem by an association list from paths to contents.  Python calls that
perform I/O or can raise are modelled in `Except` / passed as explicit
outcome arguments.
-/

set_option autoImplicit false

namespace EmojiKitchen

/-- Modelled from the spec: `storage/paths.py` is absent from the sources.
Lowercase hex digit character for a value below 16 (0-9 then a-f). -/
def hexDigitChar (n : Nat) : Char :=
  if n < 10 then Char.ofNat (48 + n) else Char.ofNat (87 + n)

/-- Inverse of `hexDigitChar` on hex digit characters. -/
def hexCharVal (c : Char) : Nat :=
  if c.toNat ≥ 97 then c.toNat - 87 else c.toNat - 48

/-- Little-endian base-16 digit list of `n`, with `fuel` bounding recursion
depth so the definition is structural and kernel-reducible. -/
def toHexRevAux : Nat → Nat → List Nat
  | 0, _ => []
  | _ + 1, 0 => []
  | fuel + 1, n + 1 => (n + 1) % 16 :: toHexRevAux fuel ((n + 1) / 16)

/-- Little-endian base-16 digit list of `n` (empty for 0). -/
def toHexRev (n : Nat) : List Nat := toHexRevAux n n

/-- Value of a little-endian base-16 digit list. -/
def ofHexRev (ds : List Nat) : Nat := ds.foldr (fun d acc => d + 16 * acc) 0

/-- Modelled from the spec: lowercase hex rendering of one Unicode scalar
value, as used in `CodepointKey` (e.g. `1f600`). -/
def toHexChars (n : Nat) : List Char :=
  if n = 0 then ['0'] else ((toHexRev n).map hexDigitChar).reverse

/-- Parse hex characters back to a number (left inverse of `toHexChars`). -/
def ofHexChars (l : List Char) : Nat := ofHexRev (l.reverse.map hexCharVal)

/-- Modelled from the spec: the `CodepointKey` of an emoji — the hex forms of
its scalar values joined with hyphens (`storage/paths.py` is absent). -/
def codepointKey : List Nat → List Char
  | [] => []
  | [c] => toHexChars c
  | c :: c2 :: rest => toHexChars c ++ '-' :: codepointKey (c2 :: rest)

/-- Filename format policy of the storage layer (`filename_format` argument of
`StorageManager.__init__`): literal glyphs, hex codepoints, or auto-detect. -/
inductive FilenameFormat
  | emoji
  | codepoint
  | auto
deriving DecidableEq

/-- Errors of the embedded operations: `InvalidInput` from path resolution on
an empty emoji (spec section 4.1) and `IOError` from filesystem writes. -/
inductive EKError
  | invalidInput (msg : String)
  | ioError (msg : String)
deriving DecidableEq

/-- The raw glyph characters of an emoji, one per Unicode scalar value. -/
def glyphChars (cps : List Nat) : List Char := cps.map Char.ofNat

/-- The `.png` filename suffix. -/
def pngSuffix : List Char := ['.', 'p', 'n', 'g']

/-- Modelled from the spec: how one emoji is rendered inside a directory or
file name under the given format; `auto` falls back to codepoint form when
the runtime filesystem encoding cannot round-trip the glyphs
(`fs_glyph_safe = false`). `storage/paths.py` is absent from the sources. -/
def emojiPart (fmt : FilenameFormat) (fsGlyphSafe : Bool) (e : List Nat) : List Char :=
  match fmt with
  | .codepoint => codepointKey e
  | .emoji => glyphChars e
  | .auto => if fsGlyphSafe then glyphChars e else codepointKey e

/-- Modelled from the spec: directory named after the first emoji. -/
def generate_directory_name (fmt : FilenameFormat) (safe : Bool) (e : List Nat) : String :=
  String.mk (emojiPart fmt safe e)

/-- Modelled from the spec: filename `<e1>_<e2>.png` encoding both emojis
(`StorageManager.get_file_path` passes no size to `generate_full_path`). -/
def generate_filename (fmt : FilenameFormat) (safe : Bool) (e1 e2 : List Nat) : String :=
  String.mk (emojiPart fmt safe e1 ++ '_' :: (emojiPart fmt safe e2 ++ pngSuffix))

/-- Modelled from the spec: `generate_full_path` of `storage/paths.py` (absent
from the sources) — resolves base directory, per-emoji directory and filename;
fails with `InvalidInput` on an empty emoji. Paths are component lists,
mirroring `pathlib.Path` component-wise equality. -/
def generate_full_path (base : List String) (fmt : FilenameFormat) (safe : Bool)
    (e1 e2 : List Nat) : Except EKError (List String) :=
  if e1 = [] ∨ e2 = [] then .error (.invalidInput "empty emoji")
  else .ok (base ++ [generate_directory_name fmt safe e1, generate_filename fmt safe e1 e2])

/-- Byte strings are lists of byte values. -/
abbrev Bytes := List Nat

/-- The filesystem as an association list from paths to file contents;
lookup takes the first (most recent) entry. -/
abbrev FileSystem := List (List String × Bytes)

def fsLookup : FileSystem → List String → Option Bytes
  | [], _ => none
  | (p, b) :: rest, q => if p = q then some b else fsLookup rest q

def fsErase (fs : FileSystem) (p : List String) : FileSystem :=
  fs.filter (fun e => decide (e.1 ≠ p))

/-- The storage manager of `storage/manager.py`: base directory plus the
filename format fixed at construction; `fs_glyph_safe` models the runtime
filesystem-encoding probe consulted by format `auto`. -/
structure StorageManager where
  base_dir : List String
  filename_format : FilenameFormat
  fs_glyph_safe : Bool

/-- Embeds `StorageManager.get_file_path`. -/
def StorageManager.get_file_path (m : StorageManager) (e1 e2 : List Nat) :
    Except EKError (List String) :=
  generate_full_path m.base_dir m.filename_format m.fs_glyph_safe e1 e2

/-- Embeds `StorageManager.file_exists`: resolve the path, then check
existence. -/
def StorageManager.file_exists (m : StorageManager) (fs : FileSystem)
    (e1 e2 : List Nat) : Except EKError Bool :=
  (m.get_file_path e1 e2).map (fun p => (fsLookup fs p).isSome)

/-- Embeds `StorageManager.save`: resolve the path, (implicitly create the
parent directory,) write the bytes — overwriting any previous entry — and
return the new filesystem with the path written. -/
def StorageManager.save (m : StorageManager) (fs : FileSystem)
    (e1 e2 : List Nat) (content : Bytes) : Except EKError (FileSystem × List String) :=
  (m.get_file_path e1 e2).map (fun p => ((p, content) :: fsErase fs p, p))

/-- Embeds `StorageManager.get_file_size`: size of the stored bytes, `none`
when the file does not exist. -/
def StorageManager.get_file_size (m : StorageManager) (fs : FileSystem)
    (e1 e2 : List Nat) : Except EKError (Option Nat) :=
  (m.get_file_path e1 e2).map (fun p => (fsLookup fs p).map List.length)

/-- Embeds `StorageManager.delete`: unlink and return `true` when the file
exists, otherwise leave the filesystem unchanged and return `false`. -/
def StorageManager.delete (m : StorageManager) (fs : FileSystem)
    (e1 e2 : List Nat) : Except EKError (FileSystem × Bool) :=
  (m.get_file_path e1 e2).map
    (fun p => if (fsLookup fs p).isSome then (fsErase fs p, true) else (fs, false))

/-- Python truthiness of the optional `duration_ms` value: `None` and `0`
are falsy. Durations are modelled in whole milliseconds. -/
def durationTruthy : Option Nat → Bool
  | none => false
  | some 0 => false
  | some (_ + 1) => true

/-- Python truthiness of the optional `status_code` value. -/
def statusTruthy : Option Nat → Bool
  | none => false
  | some 0 => false
  | some (_ + 1) => true

/-- Python truthiness of the optional response body: `None` and `b""` are
falsy (`if success and content:` in the orchestrator). -/
def contentTruthy : Option Bytes → Bool
  | none => false
  | some [] => false
  | some (_ :: _) => true

/-- The emoji rendered as its glyph characters. -/
def glyphString (cps : List Nat) : String := String.mk (glyphChars cps)

/-- A path rendered as a string, as `str(file_path)` does. -/
def pathString (p : List String) : String := String.intercalate "/" p

def errString : EKError → String
  | .invalidInput m => m
  | .ioError m => m

/-- Embeds the `DownloadResult` dataclass of `utils/json_logger.py`
(the wall-clock `timestamp` field is omitted). -/
structure DownloadResult where
  emoji1 : List Nat
  emoji2 : List Nat
  success : Bool
  file_path : Option (List String) := none
  error_type : Option String := none
  error_message : Option String := none
  status_code : Option Nat := none
  duration_ms : Option Nat := none
  url : Option String := none
deriving DecidableEq

/-- In-memory state of a `JSONLogger`: the success and failure record lists
plus the human-readable lines sent to the Python logger. -/
structure LoggerState where
  successes : List DownloadResult := []
  failures : List DownloadResult := []
  infoMessages : List String := []
deriving DecidableEq

/-- Embeds the human-readable line of `JSONLogger.log_success`: by Python
conditional-expression precedence the whole concatenated f-string is the
`if` branch, so the message is empty whenever `duration_ms` is falsy. -/
def successLogLine (e1 e2 : List Nat) (fp : String) (duration_ms : Option Nat) : String :=
  if durationTruthy duration_ms then
    "SUCCESS: " ++ glyphString e1 ++ " + " ++ glyphString e2 ++ " -> " ++ fp ++
      " (" ++ toString (duration_ms.getD 0) ++ "ms)"
  else ""

/-- Embeds the human-readable line of `JSONLogger.log_failure`: here the
conditional tests `status_code` (not `duration_ms`), blanking the whole line
whenever `status_code` is falsy. -/
def failureLogLine (e1 e2 : List Nat) (error_type error_message : String)
    (status_code : Option Nat) : String :=
  if statusTruthy status_code then
    "FAILURE: " ++ glyphString e1 ++ " + " ++ glyphString e2 ++ " - " ++ error_type ++
      ": " ++ error_message ++ " [HTTP " ++ toString (status_code.getD 0) ++ "]"
  else ""

/-- Embeds `JSONLogger.log_success`: append a success record and emit the
(possibly blanked) success line. -/
def JSONLogger.log_success (lg : LoggerState) (e1 e2 : List Nat) (fp : List String)
    (duration_ms : Option Nat) (url : Option String) (status_code : Option Nat) :
    LoggerState :=
  { lg with
    successes := lg.successes ++
      [{ emoji1 := e1, emoji2 := e2, success := true, file_path := some fp,
         status_code := status_code, duration_ms := duration_ms, url := url }],
    infoMessages := lg.infoMessages ++
      [successLogLine e1 e2 (pathString fp) duration_ms] }

/-- Embeds `JSONLogger.log_failure`: append a failure record and emit the
(possibly blanked) failure line. -/
def JSONLogger.log_failure (lg : LoggerState) (e1 e2 : List Nat)
    (error_type error_message : String) (status_code : Option Nat)
    (duration_ms : Option Nat) (url : Option String) : LoggerState :=
  { lg with
    failures := lg.failures ++
      [{ emoji1 := e1, emoji2 := e2, success := false, error_type := some error_type,
         error_message := some error_message, status_code := status_code,
         duration_ms := duration_ms, url := url }],
    infoMessages := lg.infoMessages ++
      [failureLogLine e1 e2 error_type error_message status_code] }

/-- Embeds `JSONLogger.info`. -/
def JSONLogger.info (lg : LoggerState) (msg : String) : LoggerState :=
  { lg with infoMessages := lg.infoMessages ++ [msg] }

/-- Outcome tuple of `EmojiKitchenClient.download_image`:
`(success, content, error, status_code)`. -/
structure FetchResult where
  success : Bool
  content : Option Bytes
  error : Option String
  status_code : Option Nat
deriving DecidableEq

/-- Embeds the error-kind classification of `download_pair`: 404 is
`NotFound`, a truthy status of at least 500 is `ServerError`, everything
else is `NetworkError`. -/
def classify_error : Option Nat → String
  | some 404 => "NotFound"
  | some c => if c ≠ 0 ∧ 500 ≤ c then "ServerError" else "NetworkError"
  | none => "NetworkError"

/-- Embeds the `DownloadStats` dataclass of the orchestrator
(the wall-clock `duration_seconds` field is omitted). -/
structure DownloadStats where
  total : Nat := 0
  successes : Nat := 0
  failures : Nat := 0
  skipped : Nat := 0
deriving DecidableEq

/-- Session state of a `DownloadOrchestrator`: its stats and its logger. -/
structure OrchState where
  stats : DownloadStats
  log : LoggerState
deriving DecidableEq

/-- The skip info message of `download_pair`. -/
def skipMessage (e1 e2 : List Nat) : String :=
  "Skipped " ++ glyphString e1 ++ " + " ++ glyphString e2 ++ " (already exists)"

/-- Embeds `DownloadOrchestrator.download_pair`. The effectful calls appear
as explicit outcomes: `existsResult` is what `storage.file_exists` did
(a value, or a raised error — the call is outside any try block, so an error
propagates), `fetch` is the tuple from `client.download_image`, and
`saveResult` is what `storage.save` did (only this call is inside the try
block, whose handler records an `IOError` failure). Returns the new session
state and the `(success, error_message)` pair of the source. -/
def download_pair (skip_existing : Bool) (st : OrchState) (e1 e2 : List Nat)
    (existsResult : Except EKError Bool) (fetch : FetchResult)
    (saveResult : Except EKError (List String)) (url : String)
    (duration_ms : Option Nat) : Except EKError (OrchState × Bool × Option String) :=
  match existsResult with
  | .error e => .error e
  | .ok ex =>
    if skip_existing && ex then
      .ok ({ stats := { st.stats with skipped := st.stats.skipped + 1 },
             log := JSONLogger.info st.log (skipMessage e1 e2) }, true, none)
    else if fetch.success && contentTruthy fetch.content then
      match saveResult with
      | .ok p =>
        .ok ({ stats := { st.stats with successes := st.stats.successes + 1 },
               log := JSONLogger.log_success st.log e1 e2 p duration_ms (some url)
                 fetch.status_code }, true, none)
      | .error err =>
        .ok ({ stats := { st.stats with failures := st.stats.failures + 1 },
               log := JSONLogger.log_failure st.log e1 e2 "IOError"
                 ("Failed to save file: " ++ errString err) none duration_ms (some url) },
             false, some ("Failed to save file: " ++ errString err))
    else
      .ok ({ stats := { st.stats with failures := st.stats.failures + 1 },
             log := JSONLogger.log_failure st.log e1 e2 (classify_error fetch.status_code)
               (fetch.error.getD "Unknown error") fetch.status_code duration_ms
               (some url) },
           false, fetch.error)

/-- Whether an `Except` outcome is a returned value (no exception escaped). -/
def exceptOk {ε α : Type} : Except ε α → Bool
  | .ok _ => true
  | .error _ => false

/-- Counters and failure list of `BulkDownloader` in `Scripts/bulk_download.py`. -/
structure BulkState where
  successes : Nat := 0
  failures : Nat := 0
  skipped : Nat := 0
  not_found : Nat := 0
  failed_pairs : List (List Nat × List Nat × String) := []
deriving DecidableEq

/-- Embeds `BulkDownloader.process_single` (progress-bar updates omitted):
here a 404 goes to the separate `not_found` counter. -/
def process_single (st : BulkState) (e1 e2 : List Nat) (existsBefore : Bool)
    (fetch : FetchResult) (saveResult : Except EKError (List String)) : BulkState :=
  if existsBefore then
    { st with skipped := st.skipped + 1 }
  else if fetch.success && contentTruthy fetch.content then
    match saveResult with
    | .ok _ => { st with successes := st.successes + 1 }
    | .error e =>
      { st with failures := st.failures + 1,
                failed_pairs := st.failed_pairs ++ [(e1, e2, errString e)] }
  else if fetch.status_code = some 404 then
    { st with not_found := st.not_found + 1 }
  else
    { st with failures := st.failures + 1,
              failed_pairs := st.failed_pairs ++ [(e1, e2, fetch.error.getD "Unknown error")] }

theorem ofHexRev_cons (d : Nat) (ds : List Nat) :
    ofHexRev (d :: ds) = d + 16 * ofHexRev ds := rfl

theorem ofHexRev_toHexRevAux :
    ∀ (fuel n : Nat), n ≤ fuel → ofHexRev (toHexRevAux fuel n) = n
  | 0, 0, _ => rfl
  | 0, _ + 1, h => absurd h (by omega)
  | _ + 1, 0, _ => rfl
  | fuel + 1, n + 1, _ => by
    have hle : (n + 1) / 16 ≤ fuel := by
      have := Nat.div_lt_self (Nat.succ_pos n) (by omega : 1 < 16)
      omega
    show ofHexRev ((n + 1) % 16 :: toHexRevAux fuel ((n + 1) / 16)) = n + 1
    rw [ofHexRev_cons, ofHexRev_toHexRevAux fuel ((n + 1) / 16) hle]
    omega

theorem ofHexRev_toHexRev (n : Nat) : ofHexRev (toHexRev n) = n :=
  ofHexRev_toHexRevAux n n (Nat.le_refl n)

theorem toHexRev_injective {m n : Nat} (h : toHexRev m = toHexRev n) : m = n := by
  have hm := ofHexRev_toHexRev m
  rw [h, ofHexRev_toHexRev n] at hm
  exact hm.symm

theorem toHexRevAux_mem_lt :
    ∀ (fuel n d : Nat), d ∈ toHexRevAux fuel n → d < 16
  | 0, _, _, h => by simp [toHexRevAux] at h
  | _ + 1, 0, _, h => by simp [toHexRevAux] at h
  | fuel + 1, n + 1, d, h => by
    rcases List.mem_cons.mp h with h1 | h2
    · subst h1; exact Nat.mod_lt _ (by omega)
    · exact toHexRevAux_mem_lt fuel ((n + 1) / 16) d h2

theorem toHexRev_mem_lt {n d : Nat} (h : d ∈ toHexRev n) : d < 16 :=
  toHexRevAux_mem_lt n n d h

theorem hexCharVal_hexDigitChar : ∀ d : Nat, d < 16 → hexCharVal (hexDigitChar d) = d := by
  decide

theorem hexDigitChar_ne_special :
    ∀ d : Nat, d < 16 →
      hexDigitChar d ≠ '-' ∧ hexDigitChar d ≠ '_' ∧ hexDigitChar d ≠ '.' := by
  decide

theorem map_id_of_mem {α : Type} {f : α → α} :
    ∀ (l : List α), (∀ x ∈ l, f x = x) → l.map f = l
  | [], _ => rfl
  | a :: t, h => by
    rw [List.map_cons, h a (List.mem_cons_self a t),
      map_id_of_mem t (fun x hx => h x (List.mem_cons_of_mem a hx))]

theorem ofHexChars_toHexChars (n : Nat) : ofHexChars (toHexChars n) = n := by
  by_cases h : n = 0
  · subst h; decide
  · rw [toHexChars, if_neg h, ofHexChars, List.reverse_reverse, List.map_map]
    have hmap : (toHexRev n).map (hexCharVal ∘ hexDigitChar) = toHexRev n := by
      apply map_id_of_mem
      intro x hx
      exact hexCharVal_hexDigitChar x (toHexRev_mem_lt hx)
    rw [hmap, ofHexRev_toHexRev]

theorem toHexChars_injective {m n : Nat} (h : toHexChars m = toHexChars n) : m = n := by
  have hm := ofHexChars_toHexChars m
  rw [h, ofHexChars_toHexChars n] at hm
  exact hm.symm

theorem toHexRev_ne_nil {n : Nat} (h : n ≠ 0) : toHexRev n ≠ [] := by
  match n, h with
  | m + 1, _ =>
    show toHexRevAux (m + 1) (m + 1) ≠ []
    simp [toHexRevAux]

theorem toHexChars_ne_nil (n : Nat) : toHexChars n ≠ [] := by
  by_cases h : n = 0
  · subst h; decide
  · rw [toHexChars, if_neg h]
    intro hc
    rw [List.reverse_eq_nil_iff, List.map_eq_nil_iff] at hc
    exact toHexRev_ne_nil h hc

theorem toHexChars_mem {n : Nat} {c : Char} (h : c ∈ toHexChars n) :
    ∃ d, d < 16 ∧ c = hexDigitChar d := by
  by_cases h0 : n = 0
  · subst h0
    rw [show toHexChars 0 = ['0'] from rfl, List.mem_singleton] at h
    exact ⟨0, by omega, by rw [h]; decide⟩
  · rw [toHexChars, if_neg h0, List.mem_reverse] at h
    rcases List.mem_map.mp h with ⟨d, hd, hdc⟩
    exact ⟨d, toHexRev_mem_lt hd, hdc.symm⟩

theorem toHexChars_not_mem_special (n : Nat) :
    '-' ∉ toHexChars n ∧ '_' ∉ toHexChars n ∧ '.' ∉ toHexChars n := by
  refine ⟨fun h => ?_, fun h => ?_, fun h => ?_⟩
  · rcases toHexChars_mem h with ⟨d, hd, hc⟩
    exact (hexDigitChar_ne_special d hd).1 hc.symm
  · rcases toHexChars_mem h with ⟨d, hd, hc⟩
    exact (hexDigitChar_ne_special d hd).2.1 hc.symm
  · rcases toHexChars_mem h with ⟨d, hd, hc⟩
    exact (hexDigitChar_ne_special d hd).2.2 hc.symm

theorem codepointKey_mem {cps : List Nat} {c : Char} :
    c ∈ codepointKey cps → c = '-' ∨ ∃ d, d < 16 ∧ c = hexDigitChar d := by
  match cps with
  | [] => intro h; simp [codepointKey] at h
  | [x] => intro h; exact Or.inr (toHexChars_mem h)
  | x :: x2 :: rest =>
    intro h
    rcases List.mem_append.mp h with h1 | h2
    · exact Or.inr (toHexChars_mem h1)
    · rcases List.mem_cons.mp h2 with h3 | h4
      · exact Or.inl h3
      · exact codepointKey_mem h4

theorem codepointKey_not_mem_underscore (cps : List Nat) : '_' ∉ codepointKey cps := by
  intro h
  rcases codepointKey_mem h with h1 | ⟨d, hd, hc⟩
  · exact absurd h1 (by decide)
  · exact absurd hc.symm (hexDigitChar_ne_special d hd).2.1

theorem append_sep_inj {α : Type} {sep : α} :
    ∀ (l1 l1' l2 l2' : List α), sep ∉ l1 → sep ∉ l1' →
      l1 ++ sep :: l2 = l1' ++ sep :: l2' → l1 = l1' ∧ l2 = l2'
  | [], [], _, _, _, _, h => ⟨rfl, by simpa using h⟩
  | [], a :: t, _, _, _, h1, h => by
    simp only [List.nil_append, List.cons_append, List.cons.injEq] at h
    exact absurd (h.1 ▸ List.mem_cons_self a t) h1
  | a :: t, [], _, _, h1, _, h => by
    simp only [List.nil_append, List.cons_append, List.cons.injEq] at h
    exact absurd (h.1.symm ▸ List.mem_cons_self a t) h1
  | a :: t, a' :: t', l2, l2', h1, h1', h => by
    simp only [List.cons_append, List.cons.injEq] at h
    have ht := append_sep_inj t t' l2 l2'
      (fun hm => h1 (List.mem_cons_of_mem a hm))
      (fun hm => h1' (List.mem_cons_of_mem a' hm)) h.2
    exact ⟨by rw [h.1, ht.1], ht.2⟩

theorem codepointKey_injective :
    ∀ (xs ys : List Nat), codepointKey xs = codepointKey ys → xs = ys
  | [], [], _ => rfl
  | [], [y], h => absurd h.symm (toHexChars_ne_nil y)
  | [], y :: y2 :: rest, h => by
    have : toHexChars y ++ '-' :: codepointKey (y2 :: rest) = [] := h.symm
    simp at this
  | [x], [], h => absurd h (toHexChars_ne_nil x)
  | x :: x2 :: rest, [], h => by
    have : toHexChars x ++ '-' :: codepointKey (x2 :: rest) = [] := h
    simp at this
  | [x], [y], h => by rw [toHexChars_injective h]
  | [x], y :: y2 :: rest, h => by
    exfalso
    have hm : '-' ∈ toHexChars x := by
      rw [show codepointKey [x] = toHexChars x from rfl] at h
      rw [h]
      exact List.mem_append_right _ (List.mem_cons_self _ _)
    exact (toHexChars_not_mem_special x).1 hm
  | x :: x2 :: rest, [y], h => by
    exfalso
    have hm : '-' ∈ toHexChars y := by
      rw [show codepointKey [y] = toHexChars y from rfl] at h
      rw [← h]
      exact List.mem_append_right _ (List.mem_cons_self _ _)
    exact (toHexChars_not_mem_special y).1 hm
  | x :: x2 :: rest, y :: y2 :: rest2, h => by
    have hsplit := append_sep_inj (toHexChars x) (toHexChars y)
      (codepointKey (x2 :: rest)) (codepointKey (y2 :: rest2))
      (toHexChars_not_mem_special x).1 (toHexChars_not_mem_special y).1 h
    have h1 := toHexChars_injective hsplit.1
    have h2 := codepointKey_injective (x2 :: rest) (y2 :: rest2) hsplit.2
    rw [h1, h2]

theorem fsLookup_fsErase (fs : FileSystem) (p : List String) :
    fsLookup (fsErase fs p) p = none := by
  induction fs with
  | nil => rfl
  | cons e rest ih =>
    by_cases h : e.1 = p
    · simpa [fsErase, List.filter_cons, h] using ih
    · simpa [fsErase, List.filter_cons, h, fsLookup] using ih

/-- C4: whenever `save(pair, bytes)` returns without raising, `file_exists`
is true immediately afterwards and `get_file_size` equals the length of the
bytes, including when a file for that pair already existed (save overwrites
the previous contents). -/
theorem c4_save_then_exists_and_size (m : StorageManager) (fs : FileSystem)
    (e1 e2 : List Nat) (content : Bytes) :
    match m.save fs e1 e2 content with
    | .ok (fs2, _) =>
        m.file_exists fs2 e1 e2 = .ok true ∧
        m.get_file_size fs2 e1 e2 = .ok (some content.length)
    | .error _ => True := by
  unfold StorageManager.save StorageManager.file_exists StorageManager.get_file_size
  cases hp : m.get_file_path e1 e2 with
  | error e => simp [Except.map]
  | ok p => simp [Except.map, fsLookup]

/-- C10: `delete(pair)` returns `true` exactly when a file for that pair
existed (they agree with `file_exists` on the pre-state), after any `delete`
call `file_exists` is false, and when the file did not exist the filesystem
is returned unchanged with result `false`. -/
theorem c10_delete_spec (m : StorageManager) (fs : FileSystem) (e1 e2 : List Nat) :
    match m.get_file_path e1 e2 with
    | .ok p =>
        m.delete fs e1 e2 =
          .ok ((if (fsLookup fs p).isSome then fsErase fs p else fs),
               (fsLookup fs p).isSome) ∧
        m.file_exists fs e1 e2 = .ok (fsLookup fs p).isSome ∧
        m.file_exists (if (fsLookup fs p).isSome then fsErase fs p else fs) e1 e2 =
          .ok false
    | .error _ => True := by
  unfold StorageManager.delete StorageManager.file_exists
  cases hp : m.get_file_path e1 e2 with
  | error e => simp [Except.map]
  | ok p =>
    by_cases h : (fsLookup fs p).isSome
    · simp [Except.map, h, fsLookup_fsErase]
    · simp only [Bool.not_eq_true] at h
      simp [Except.map, h]

/-- C5: path resolution is deterministic (same pair, same format, same
resolver give the same path), and under format `codepoint` it is injective:
two valid (nonempty) pairs resolve to the same path exactly when they are the
same pair. -/
theorem c5_resolve_deterministic_injective :
    (∀ (m : StorageManager) (x y : List Nat),
        m.get_file_path x y = m.get_file_path x y) ∧
    (∀ (base : List String) (safe : Bool) (a0 b0 c0 d0 : Nat)
        (ta tb tc td : List Nat),
        (StorageManager.mk base .codepoint safe).get_file_path (a0 :: ta) (b0 :: tb) =
          (StorageManager.mk base .codepoint safe).get_file_path (c0 :: tc) (d0 :: td) ↔
        (a0 :: ta = c0 :: tc ∧ b0 :: tb = d0 :: td)) := by
  constructor
  · intro m x y
    rfl
  · intro base safe a0 b0 c0 d0 ta tb tc td
    constructor
    · intro h
      unfold StorageManager.get_file_path generate_full_path at h
      rw [if_neg (by simp), if_neg (by simp)] at h
      have hlists := List.append_cancel_left (Except.ok.inj h)
      have hdir := (List.cons.injEq _ _ _ _).mp hlists
      have hfile := (List.cons.injEq _ _ _ _).mp hdir.2
      unfold generate_filename at hfile
      have hchars : emojiPart .codepoint safe (a0 :: ta) ++
          '_' :: (emojiPart .codepoint safe (b0 :: tb) ++ pngSuffix) =
          emojiPart .codepoint safe (c0 :: tc) ++
          '_' :: (emojiPart .codepoint safe (d0 :: td) ++ pngSuffix) := by
        have := hfile.1
        exact congrArg String.data this
      simp only [emojiPart] at hchars
      have hsplit := append_sep_inj (codepointKey (a0 :: ta)) (codepointKey (c0 :: tc))
        (codepointKey (b0 :: tb) ++ pngSuffix) (codepointKey (d0 :: td) ++ pngSuffix)
        (codepointKey_not_mem_underscore _) (codepointKey_not_mem_underscore _) hchars
      have h1 := codepointKey_injective _ _ hsplit.1
      have h2 := codepointKey_injective _ _ (List.append_cancel_right hsplit.2)
      exact ⟨h1, h2⟩
    · intro h
      rw [h.1, h.2]

/-- C2: whenever the existence check returns a value, `download_pair`
increments exactly one of the successes/failures/skipped counters by exactly
one; off the skip path it appends exactly one success-or-failure record,
while the pre-network skip path appends no record but still logs the skip
info message. -/
theorem c2_exactly_one_counter_and_record (skip_existing ex : Bool) (st : OrchState)
    (e1 e2 : List Nat) (fetch : FetchResult) (saveResult : Except EKError (List String))
    (url : String) (dur : Option Nat) :
    match download_pair skip_existing st e1 e2 (.ok ex) fetch saveResult url dur with
    | .ok (st2, _, _) =>
        ((st2.stats.successes = st.stats.successes + 1 ∧
          st2.stats.failures = st.stats.failures ∧
          st2.stats.skipped = st.stats.skipped) ∨
         (st2.stats.successes = st.stats.successes ∧
          st2.stats.failures = st.stats.failures + 1 ∧
          st2.stats.skipped = st.stats.skipped) ∨
         (st2.stats.successes = st.stats.successes ∧
          st2.stats.failures = st.stats.failures ∧
          st2.stats.skipped = st.stats.skipped + 1)) ∧
        (if skip_existing && ex then
          st2.log.successes = st.log.successes ∧
          st2.log.failures = st.log.failures ∧
          st2.log.infoMessages = st.log.infoMessages ++ [skipMessage e1 e2]
        else
          st2.log.successes.length + st2.log.failures.length =
            st.log.successes.length + st.log.failures.length + 1)
    | .error _ => False := by
  unfold download_pair
  by_cases hskip : (skip_existing && ex) = true
  · simp [hskip, JSONLogger.info]
  · by_cases hfetch : (fetch.success && contentTruthy fetch.content) = true
    · cases saveResult with
      | ok p => simp [hskip, hfetch, JSONLogger.log_success]; omega
      | error e => simp [hskip, hfetch, JSONLogger.log_failure]; omega
    · simp [hskip, hfetch, JSONLogger.log_failure]; omega

/-- C3: with `skip_existing` enabled and the storage manager reporting the
file exists, `download_pair` takes the skip path: it increments `skipped` by
one, logs the skip message, and returns a success result `(true, none)`;
moreover the result is independent of the fetch outcome, the save outcome,
the url and the duration — no network call influences it. -/
theorem c3_skip_existing_no_network (st : OrchState) (e1 e2 : List Nat)
    (fetch fetch2 : FetchResult) (saveResult saveResult2 : Except EKError (List String))
    (url url2 : String) (dur dur2 : Option Nat) :
    download_pair true st e1 e2 (.ok true) fetch saveResult url dur =
      .ok ({ stats := { st.stats with skipped := st.stats.skipped + 1 },
             log := JSONLogger.info st.log (skipMessage e1 e2) }, true, none) ∧
    download_pair true st e1 e2 (.ok true) fetch saveResult url dur =
      download_pair true st e1 e2 (.ok true) fetch2 saveResult2 url2 dur2 :=
  ⟨rfl, rfl⟩

/-- C1 counterexample: at a concrete 404 fetch outcome the orchestrator
increments the very same `failures` counter that a 503 ServerError outcome
increments — the record's kind is NotFound, but the aggregate category is
not distinct. -/
theorem c1_counterexample :
    (download_pair false ⟨⟨0, 0, 0, 0⟩, ⟨[], [], []⟩⟩ [0x1F600] [0x1F60E] (.ok false)
        ⟨false, none, some "HTTP 404", some 404⟩ (.ok []) "u" (some 5)).map
        (fun r => (r.1.stats.failures, r.1.log.failures.map (fun f => f.error_type))) =
      .ok (1, [some "NotFound"]) ∧
    (download_pair false ⟨⟨0, 0, 0, 0⟩, ⟨[], [], []⟩⟩ [0x1F600] [0x1F60E] (.ok false)
        ⟨false, none, some "HTTP 503", some 503⟩ (.ok []) "u" (some 5)).map
        (fun r => r.1.stats.failures) = .ok 1 :=
  ⟨rfl, rfl⟩

/-- C1 amended: a 404 outcome is recorded with error kind NotFound and the
attempt is not counted as a success; `BulkDownloader.process_single` counts
it in the separate `not_found` counter, but `DownloadOrchestrator.download_pair`
increments the same `failures` counter as other failure outcomes. -/
theorem c1_amended_notfound_handling (st : OrchState) (bst : BulkState)
    (e1 e2 : List Nat) (content : Option Bytes) (ferr : Option String)
    (saveResult : Except EKError (List String)) (url : String) (dur : Option Nat) :
    (match download_pair false st e1 e2 (.ok false) ⟨false, content, ferr, some 404⟩
        saveResult url dur with
     | .ok (st2, ok, _) =>
        ok = false ∧
        st2.stats.failures = st.stats.failures + 1 ∧
        st2.stats.successes = st.stats.successes ∧
        st2.stats.skipped = st.stats.skipped ∧
        st2.log.failures.map (fun f => f.error_type) =
          st.log.failures.map (fun f => f.error_type) ++ [some "NotFound"]
     | .error _ => False) ∧
    (process_single bst e1 e2 false ⟨false, content, ferr, some 404⟩ saveResult).not_found =
      bst.not_found + 1 ∧
    (process_single bst e1 e2 false ⟨false, content, ferr, some 404⟩ saveResult).failures =
      bst.failures := by
  refine ⟨?_, rfl, rfl⟩
  simp [download_pair, classify_error, JSONLogger.log_failure]

/-- C6 counterexample: with `skip_existing` enabled the existence check runs
outside any try block; for an empty first emoji the path resolver's
InvalidInput error propagates out of `download_pair` instead of being
caught, classified and folded into the aggregate statistics. -/
theorem c6_counterexample :
    download_pair true ⟨⟨0, 0, 0, 0⟩, ⟨[], [], []⟩⟩ [] [0x1F600]
        ((StorageManager.mk ["out"] .codepoint true).file_exists [] [] [0x1F600])
        ⟨true, some [1], none, some 200⟩ (.ok ["out", "p"]) "u" (some 5) =
      .error (.invalidInput "empty emoji") := rfl

/-- C6 amended: only the save step is guarded. When the pre-fetch steps
return values, `download_pair` always returns a value — save errors are
folded into the stats as IOError failures — but an exception raised by the
existence check propagates uncaught to the caller. -/
theorem c6_amended_catch_scope (skip_existing : Bool) (st : OrchState) (e1 e2 : List Nat)
    (ex : Bool) (err : EKError) (fetch : FetchResult)
    (saveResult : Except EKError (List String)) (url : String) (dur : Option Nat) :
    exceptOk (download_pair skip_existing st e1 e2 (.ok ex) fetch saveResult url dur) =
      true ∧
    download_pair skip_existing st e1 e2 (.error err) fetch saveResult url dur =
      .error err := by
  constructor
  · unfold download_pair
    by_cases h1 : (skip_existing && ex) = true
    · simp [h1, exceptOk]
    · by_cases h2 : (fetch.success && contentTruthy fetch.content) = true
      · cases saveResult with
        | ok p => simp [h1, h2, exceptOk]
        | error e => simp [h1, h2, exceptOk]
      · simp [h1, h2, exceptOk]
  · rfl

/-- C7: when the fetch succeeds with nonempty content but the save raises,
`download_pair` returns `false` (not a success): the `failures` counter is
incremented, `successes` is untouched, and the appended failure record has
error kind IOError with no HTTP status — a local-disk failure, not a
network one. -/
theorem c7_save_failure_is_ioerror (st : OrchState) (e1 e2 : List Nat) (c : Nat)
    (cs : Bytes) (ferr : Option String) (scode : Option Nat) (err : EKError)
    (url : String) (dur : Option Nat) :
    download_pair false st e1 e2 (.ok false) ⟨true, some (c :: cs), ferr, scode⟩
        (.error err) url dur =
      .ok ({ stats := { st.stats with failures := st.stats.failures + 1 },
             log := JSONLogger.log_failure st.log e1 e2 "IOError"
               ("Failed to save file: " ++ errString err) none dur (some url) },
           false, some ("Failed to save file: " ++ errString err)) := rfl

/-- C9 counterexample: `log_failure` with a truthy duration (5 ms) but no
HTTP status emits the empty line — so a truthy `duration_ms` does not give
the full formatted failure line; the blanking condition of the failure line
is `status_code`. -/
theorem c9_counterexample :
    (JSONLogger.log_failure ⟨[], [], []⟩ [0x1F600] [0x1F60E] "ServerError" "boom"
        none (some 5) none).infoMessages = [""] := rfl

/-- C9 amended: the success line is blanked exactly when `duration_ms` is
falsy (None or zero) and is the full formatted line otherwise, while the
failure line is blanked exactly when `status_code` is falsy, independent of
`duration_ms`. -/
theorem c9_amended_blanking_conditions :
    (∀ (lg : LoggerState) (e1 e2 : List Nat) (fp : List String) (url : Option String)
        (sc : Option Nat) (d : Option Nat),
        (JSONLogger.log_success lg e1 e2 fp d url sc).infoMessages =
          lg.infoMessages ++
            [if durationTruthy d then
              "SUCCESS: " ++ glyphString e1 ++ " + " ++ glyphString e2 ++ " -> " ++
                pathString fp ++ " (" ++ toString (d.getD 0) ++ "ms)"
            else ""]) ∧
    (∀ (lg : LoggerState) (e1 e2 : List Nat) (et em : String) (sc d : Option Nat)
        (url : Option String),
        (JSONLogger.log_failure lg e1 e2 et em sc d url).infoMessages =
          lg.infoMessages ++
            [if statusTruthy sc then
              "FAILURE: " ++ glyphString e1 ++ " + " ++ glyphString e2 ++ " - " ++ et ++
                ": " ++ em ++ " [HTTP " ++ toString (sc.getD 0) ++ "]"
            else ""]) :=
  ⟨fun _ _ _ _ _ _ _ => rfl, fun _ _ _ _ _ _ _ _ => rfl⟩

end EmojiKitchen
